import Mathlib

/-!
# Verification of the csaf-walker walker pipeline

Shallow embedding of the csaf-walker source (HTTP source, File source,
StoreVisitor, Walker) together with theorems settling the specification
claims about it.  Definitions follow the Rust source files
`src/csaf/src/source/http.rs`, `src/csaf/src/source/file.rs`,
`src/csaf/src/visitors/store.rs` and `src/csaf/src/walker.rs`.

Strings are modelled with Lean `String` but all operations are defined
over the underlying character lists, so that every definition reduces in
the kernel and witnesses can be checked by `decide` or `rfl`.
-/

/-! ## String primitives (kernel-computable models of the Rust `str` API) -/

/-- `starts_chars pre l` is true when `pre` is an initial segment of `l`. -/
def starts_chars : List Char → List Char → Bool
  | [], _ => true
  | _ :: _, [] => false
  | a :: as, b :: bs => a == b && starts_chars as bs

/-- Rust `str::starts_with`. -/
def str_starts_with (s pre : String) : Bool := starts_chars pre.data s.data

/-- Rust `str::ends_with`. -/
def str_ends_with (s post : String) : Bool :=
  starts_chars post.data.reverse s.data.reverse

/-- Rust byte-slicing `&s[n..]` (all our slice points are ASCII, so
character positions coincide with byte positions). -/
def str_drop (s : String) (n : Nat) : String := ⟨s.data.drop n⟩

/-- Splitting a character list at every occurrence of `c`, keeping empty
pieces — the semantics of Rust `str::split(c)`. -/
def split_char_aux (c : Char) : List Char → List Char → List (List Char)
  | [], acc => [acc.reverse]
  | x :: xs, acc =>
    if x == c then acc.reverse :: split_char_aux c xs []
    else split_char_aux c xs (x :: acc)

/-- Rust `str::split(c)` as a list of strings. -/
def split_char (c : Char) (s : String) : List String :=
  (split_char_aux c s.data []).map String.mk

/-- `str_intercalate sep xs` joins `xs` with `sep` between elements. -/
def str_intercalate (sep : String) : List String → String
  | [] => ""
  | [x] => x
  | x :: xs => x ++ sep ++ str_intercalate sep xs

/-! ## URLs -/

/-- URL parse error, modelling `url::ParseError`. -/
inductive ParseError where
  | invalid
deriving DecidableEq, Repr

/-- Split a character list at the first occurrence of `"://"`, returning
the scheme part and the remainder. -/
def scheme_split : List Char → Option (List Char × List Char)
  | ':' :: '/' :: '/' :: rest => some ([], rest)
  | c :: rest => (scheme_split (c :: rest).tail).map fun p => (c :: p.1, p.2)
  | [] => none

/-- Crude model of `url::Url::parse`: a string parses when it has the
shape `scheme://rest` with a nonempty alphabetic scheme and nonempty
remainder.  Only fallibility and the identity of accepted strings matter
to the claims. -/
def url_parse (s : String) : Except ParseError String :=
  match scheme_split s.data with
  | some (scheme, rest) =>
    if !scheme.isEmpty && scheme.all Char.isAlpha && !rest.isEmpty then .ok s
    else .error .invalid
  | none => .error .invalid

/-- The `file://` URL of an absolute path given as segments
(`Url::from_file_path`). -/
def fileUrl (p : List String) : String :=
  "file:///" ++ str_intercalate "/" p

/-- The `file://` directory URL of an absolute path
(`Url::from_directory_path`): like `fileUrl` but with a trailing slash. -/
def fileDirUrl (p : List String) : String :=
  "file:///" ++ str_intercalate "/" p ++ "/"

/-! ## Discovery data model -/

/-- A distribution context: a directory distribution base URL or a ROLIE
feed URL (`DistributionContext` in `discover.rs`). -/
inductive DistributionContext where
  | Directory (url : String)
  | Feed (url : String)
deriving DecidableEq, Repr

/-- The URL of a distribution context (`DistributionContext::url`). -/
def DistributionContext.url : DistributionContext → String
  | .Directory u => u
  | .Feed u => u

/-- A discovered advisory (`DiscoveredAdvisory`): absolute document URL,
modification timestamp, optional digest and signature URLs, and the
originating distribution context.  Timestamps are modelled as `Nat`. -/
structure DiscoveredAdvisory where
  url : String
  modified : Nat
  digest : Option String := none
  signature : Option String := none
  context : DistributionContext
deriving DecidableEq, Repr

/-- One row of `changes.csv` (`ChangeEntry` in walker-common): a relative
file path and a timestamp. -/
structure ChangeEntry where
  file : String
  timestamp : Nat
deriving DecidableEq, Repr

/-- One entry of a ROLIE feed (`SourceFile` in `rolie.rs`): file URL,
timestamp, optional digest URL, optional signature URL. -/
structure SourceFile where
  file : String
  timestamp : Nat
  digest : Option String := none
  signature : Option String := none
deriving DecidableEq, Repr

/-! ## HTTP source: `load_index` -/

/-- The `since_filter` closure of `HttpSource::load_index`: keep an entry
unless it parsed fine and its timestamp is strictly below the watermark;
parse errors always pass the filter. -/
def since_filter (since : Option Nat) : Except ParseError DiscoveredAdvisory → Bool
  | .ok a =>
    match since with
    | some s => decide (s ≤ a.modified)
    | none => true
  | .error _ => true

/-- The `join_url` closure of `HttpSource::load_index` (directory case),
string-joining step before `Url::parse`: when the base ends with `/` and
the path *ends* with `/`, the path's first character is dropped;
otherwise the path is appended unchanged. -/
def join_url (base s : String) : String :=
  let s := if str_ends_with base "/" && str_ends_with s "/" then str_drop s 1 else s
  base ++ s

/-- `join_url` followed by `Url::parse`, as in the source. -/
def http_join (base s : String) : Except ParseError String :=
  url_parse (join_url base s)

/-- Rust's `Iterator::collect::<Result<Vec<_>, _>>()`: succeed with the
list of values, or fail with the first error. -/
def collect_results {ε α : Type} : List (Except ε α) → Except ε (List α)
  | [] => .ok []
  | .error e :: _ => .error e
  | .ok a :: xs => (collect_results xs).map (a :: ·)

/-- The per-entry step of the directory branch of
`HttpSource::load_index`: join the entry's path to the base and build
the discovered advisory. -/
def directory_entry_parse (ctx : DistributionContext) (base : String)
    (e : ChangeEntry) : Except ParseError DiscoveredAdvisory :=
  (http_join base e.file).map fun url =>
    { context := ctx, url := url, modified := e.timestamp,
      signature := none, digest := none }

/-- `HttpSource::load_index`, directory-distribution branch: join each
`changes.csv` entry to the base, apply the since filter, collect. -/
def http_load_index_directory (since : Option Nat) (base : String)
    (entries : List ChangeEntry) : Except ParseError (List DiscoveredAdvisory) :=
  let ctx := DistributionContext.Directory base
  collect_results
    ((entries.map (directory_entry_parse ctx base)).filter (since_filter since))

/-- `Option::transpose` over URL parsing, as in
`digest.map(|d| Url::parse(&d)).transpose()?`. -/
def transpose_parse (o : Option String) : Except ParseError (Option String) :=
  match o with
  | none => .ok none
  | some s => (url_parse s).map some

/-- The per-entry step of the ROLIE-feed branch of
`HttpSource::load_index`: parse the entry's file URL, then its optional
digest and signature URLs, and build the discovered advisory. -/
def feed_entry_parse (ctx : DistributionContext) (sf : SourceFile) :
    Except ParseError DiscoveredAdvisory := do
  let url ← url_parse sf.file
  let digest ← transpose_parse sf.digest
  let signature ← transpose_parse sf.signature
  Except.ok { context := ctx, url := url, digest := digest,
              signature := signature, modified := sf.timestamp }

/-- `HttpSource::load_index`, ROLIE-feed branch: parse each entry's file,
digest and signature URLs, apply the since filter, collect. -/
def http_load_index_feed (since : Option Nat) (feed : String)
    (files : List SourceFile) : Except ParseError (List DiscoveredAdvisory) :=
  let ctx := DistributionContext.Feed feed
  collect_results
    ((files.map (feed_entry_parse ctx)).filter (since_filter since))

/-! ## File source: `load_index` -/

/-- A filesystem entry seen by the File source's directory walk:
path segments (absolute path), whether it is a regular file, and its
modification time. -/
structure FileEntry where
  path : List String
  isFile : Bool
  mtime : Nat
deriving DecidableEq, Repr

/-- `Path::file_name` on a segment path. -/
def FileEntry.fileName (e : FileEntry) : Option String := e.path.getLast?

/-- `FileSource::load_index`: keep regular files whose name ends in
`.json`, skipping those whose mtime is strictly below the `since`
watermark; the discovered URL is the file's `file://` URL. -/
def file_load_index (since : Option Nat) (ctx : DistributionContext)
    (entries : List FileEntry) : List DiscoveredAdvisory :=
  entries.filterMap fun e =>
    if !e.isFile then none
    else match e.fileName with
    | none => none
    | some name =>
      if !str_ends_with name ".json" then none
      else
        match since with
        | some s =>
          if e.mtime < s then none
          else some { url := fileUrl e.path, modified := e.mtime,
                      digest := none, signature := none, context := ctx }
        | none => some { url := fileUrl e.path, modified := e.mtime,
                         digest := none, signature := none, context := ctx }

/-! ## HTTP source: `load_advisory` -/

/-- The response of the remote server for one URL. -/
inductive FetchResponse where
  | found (body : String)
  | notFound
  | failure
deriving DecidableEq, Repr

/-- A remote world: what the server answers at each URL. -/
def FetchWorld : Type := String → FetchResponse

/-- A fetcher error (`walker_common::fetcher::Error`). -/
inductive FetchError where
  | failure
deriving DecidableEq, Repr

/-- Modelled from the spec: `walker_common::fetcher::Fetcher::fetch::<Option<String>>`
is not under `src/`; per the spec, the three sub-fetches "all return
optional strings (404 → absent, not an error)". -/
def fetch_optional (w : FetchWorld) (u : String) : Except FetchError (Option String) :=
  match w u with
  | .found b => .ok (some b)
  | .notFound => .ok none
  | .failure => .error .failure

/-- Modelled from the spec: `Fetcher::fetch_processed` on the document
body, which streams the body and fails (rather than returning `None`)
when the document itself is missing. -/
def fetch_body (w : FetchWorld) (u : String) : Except FetchError String :=
  match w u with
  | .found b => .ok b
  | .notFound => .error .failure
  | .failure => .error .failure

/-- The signature sub-fetch of `HttpSource::load_advisory`: use the
discovered signature URL if any, otherwise guess `url + ".asc"`. -/
def signature_fetch (w : FetchWorld) (d : DiscoveredAdvisory) :
    Except FetchError (Option String) :=
  match d.signature with
  | some s => fetch_optional w s
  | none => fetch_optional w (d.url ++ ".asc")

/-- The SHA-256 sub-fetch of `HttpSource::load_advisory`: fetch the
discovered digest URL when it ends `.sha256`; yield `None` without
fetching when a digest URL is present but has another suffix; guess
`url + ".sha256"` when no digest URL was discovered. -/
def sha256_fetch (w : FetchWorld) (d : DiscoveredAdvisory) :
    Except FetchError (Option String) :=
  match d.digest with
  | some dg =>
    if str_ends_with dg ".sha256" then fetch_optional w dg
    else .ok none
  | none => fetch_optional w (d.url ++ ".sha256")

/-- The SHA-512 sub-fetch of `HttpSource::load_advisory`, analogous to
`sha256_fetch`. -/
def sha512_fetch (w : FetchWorld) (d : DiscoveredAdvisory) :
    Except FetchError (Option String) :=
  match d.digest with
  | some dg =>
    if str_ends_with dg ".sha512" then fetch_optional w dg
    else .ok none
  | none => fetch_optional w (d.url ++ ".sha512")

/-- The expected-digest extraction of `HttpSource::load_advisory`:
`expected.split(' ').next().map(ToString::to_string)` — the text before
the first space character (which is the empty string when the body
starts with a space). -/
def digest_token (line : String) : Option String :=
  (split_char ' ' line).head?

/-- A retrieved advisory (`RetrievedAdvisory`), reduced to the fields
the claims are about: the discovered document, its payload bytes, the
fetched signature and the expected digest tokens. -/
structure RetrievedAdvisory where
  discovered : DiscoveredAdvisory
  data : String
  signature : Option String := none
  sha256 : Option String := none
  sha512 : Option String := none
deriving DecidableEq, Repr

/-- `HttpSource::load_advisory`: run the three optional sub-fetches
(signature, SHA-256 line, SHA-512 line) — `try_join!` fails when any of
them fails — extract the first space-split token of each digest line,
then fetch the document body. -/
def http_load_advisory (w : FetchWorld) (d : DiscoveredAdvisory) :
    Except FetchError RetrievedAdvisory :=
  match signature_fetch w d with
  | .error e => .error e
  | .ok signature =>
    match sha256_fetch w d with
    | .error e => .error e
    | .ok sha256 =>
      match sha512_fetch w d with
      | .error e => .error e
      | .ok sha512 =>
        match fetch_body w d.url with
        | .error e => .error e
        | .ok data =>
          .ok { discovered := d, data := data, signature := signature,
                sha256 := sha256.bind digest_token,
                sha512 := sha512.bind digest_token }

/-! ## Provider metadata model -/

/-- A ROLIE feed reference in the provider metadata
(`distributions[*].rolie.feeds[*]`). -/
structure RolieFeed where
  url : String
deriving DecidableEq, Repr

/-- The `rolie` member of a distribution. -/
structure Rolie where
  feeds : List RolieFeed
deriving DecidableEq, Repr

/-- A distribution entry of the provider metadata: an optional directory
URL and an optional ROLIE section. -/
structure Distribution where
  directory_url : Option String := none
  rolie : Option Rolie := none
deriving DecidableEq, Repr

/-- A public-key reference of the provider metadata
(`public_openpgp_keys[*]`). -/
structure MetadataKey where
  fingerprint : Option String := none
  url : String
deriving DecidableEq, Repr

/-- The provider metadata (`ProviderMetadata`).  `canonical_url` stands
for the remaining fields, which neither the store nor the File source
touches (they round-trip through the JSON serialisation unchanged). -/
structure ProviderMetadata where
  distributions : List Distribution
  public_openpgp_keys : List MetadataKey := []
  canonical_url : String := ""
deriving DecidableEq, Repr

/-! ## Store path derivation -/

/-- Hex value of a character, for percent-decoding. -/
def hex_val (c : Char) : Option Nat :=
  if '0' ≤ c ∧ c ≤ '9' then some (c.toNat - '0'.toNat)
  else if 'a' ≤ c ∧ c ≤ 'f' then some (c.toNat - 'a'.toNat + 10)
  else if 'A' ≤ c ∧ c ≤ 'F' then some (c.toNat - 'A'.toNat + 10)
  else none

/-- Percent-decoding of a character list (`%XY` becomes the character
with code `0xXY`; malformed escapes are kept verbatim). -/
def percent_decode_chars : List Char → List Char
  | [] => []
  | c :: a :: b :: rest =>
    if c = '%' then
      match hex_val a, hex_val b with
      | some x, some y => Char.ofNat (16 * x + y) :: percent_decode_chars rest
      | _, _ => c :: a :: b :: percent_decode_chars rest
    else c :: percent_decode_chars (a :: b :: rest)
  | c :: rest => c :: percent_decode_chars rest

/-- Percent-decoding of a string. -/
def percent_decode (s : String) : String := ⟨percent_decode_chars s.data⟩

/-- Modelled from the spec: `distribution_base` (in `crate::model::store`,
which is not under `src/`) derives a distribution's on-disk directory
from its URL as "`<host>/<percent-decoded path, with any ".." segments
rejected>`" under the store base.  Empty segments (consecutive or
trailing slashes) produce no path component. -/
def distribution_base (base : List String) (url : String) : List String :=
  match scheme_split url.data with
  | some (_, rest) =>
    match split_char_aux '/' rest [] with
    | [] => base
    | host :: segs =>
      base ++ [String.mk host] ++
        ((segs.map fun s => percent_decode (String.mk s)).filter
          fun s => !s.isEmpty && s != "..")
  | none => base

/-! ## Store visitor -/

/-- An OpenPGP certificate, reduced to its hex fingerprint
(`sequoia_openpgp::Cert`). -/
structure Cert where
  fingerprintHex : String
deriving DecidableEq, Repr

/-- A public key of the retrieval context
(`walker_common::utils::openpgp::PublicKey`), holding certificates. -/
structure PublicKey where
  certs : List Cert
deriving DecidableEq, Repr

/-- A write operation performed by the store visitor against the
filesystem.  `createFinal` writes directly to the final path
(`File::create` / `fs::write`); `tempRename` writes a temporary file and
renames it onto the final path. -/
inductive WriteOp where
  | createDir (path : List String)
  | createDirAll (path : List String)
  | createFinal (path : List String)
  | tempRename (path : List String)
deriving DecidableEq, Repr

/-- Whether the operation writes a file directly under its final name. -/
def WriteOp.isDirectFileWrite : WriteOp → Bool
  | .createFinal _ => true
  | _ => false

/-- Whether the operation is an atomic temp-then-rename file write. -/
def WriteOp.isTempRename : WriteOp → Bool
  | .tempRename _ => true
  | _ => false

/-- `StoreVisitor::store_provider_metadata`: create `metadata/`, then
write `metadata/provider-metadata.json` directly with `File::create`. -/
def store_provider_metadata_ops (base : List String) : List WriteOp :=
  [.createDir (base ++ ["metadata"]),
   .createFinal (base ++ ["metadata", "provider-metadata.json"])]

/-- `StoreVisitor::prepare_distributions`: create the distribution base
directory of every directory URL and every ROLIE feed URL. -/
def prepare_distributions_ops (base : List String) (md : ProviderMetadata) :
    List WriteOp :=
  md.distributions.flatMap fun d =>
    (match d.directory_url with
     | some u => [WriteOp.createDirAll (distribution_base base u)]
     | none => []) ++
    (match d.rolie with
     | some r => r.feeds.map fun f => WriteOp.createDirAll (distribution_base base f.url)
     | none => [])

/-- `StoreVisitor::store_keys` / `store_cert`: create `metadata/keys/`,
then write each certificate to `<fingerprint>.txt` directly with
`fs::write`. -/
def store_keys_ops (base : List String) (keys : List PublicKey) : List WriteOp :=
  .createDir (base ++ ["metadata", "keys"]) ::
    (keys.flatMap fun k => k.certs).map fun c =>
      .createFinal (base ++ ["metadata", "keys", c.fingerprintHex ++ ".txt"])

/-- The write operations of `StoreVisitor::visit_context` (for both the
retrieved and the validated stage): provider metadata, distribution
directories, keys — in that order. -/
def visit_context_ops (base : List String) (md : ProviderMetadata)
    (keys : List PublicKey) : List WriteOp :=
  store_provider_metadata_ops base ++ prepare_distributions_ops base md ++
    store_keys_ops base keys

/-- Model of `url::Url::make_relative`, restricted to the case where the
target URL lies under the base URL; other cases yield `None` here. -/
def make_relative (base url : String) : Option String :=
  if str_starts_with url base then some (str_drop url base.data.length)
  else none

/-- A store error (`walker_common::store::StoreError`). -/
inductive StoreError where
  | filename (url : String)
  | serializeKey
  | io
deriving DecidableEq, Repr

/-- Modelled from the spec: `walker_common::store::store_document` is not
under `src/`; per the spec, the document and its sibling `.asc`,
`.sha256`, `.sha512` files are each written "Atomically
(write-temp-then-rename)". -/
def store_document_ops (dir : List String) (name : String)
    (a : RetrievedAdvisory) : List WriteOp :=
  [WriteOp.tempRename (dir ++ [name])] ++
    (match a.signature with
     | some _ => [WriteOp.tempRename (dir ++ [name ++ ".asc"])]
     | none => []) ++
    (match a.sha256 with
     | some _ => [WriteOp.tempRename (dir ++ [name ++ ".sha256"])]
     | none => []) ++
    (match a.sha512 with
     | some _ => [WriteOp.tempRename (dir ++ [name ++ ".sha512"])]
     | none => [])

/-- `StoreVisitor::store`: derive the relative name from the
distribution base URL, fail with a `Filename` error when that is not
possible, then store the document under
`<base>/<distribution_base>/<name>`. -/
def store_advisory_ops (base : List String) (a : RetrievedAdvisory) :
    Except StoreError (List WriteOp) :=
  match make_relative a.discovered.context.url a.discovered.url with
  | none => .error (.filename a.discovered.url)
  | some name =>
    .ok (store_document_ops
      (distribution_base base a.discovered.context.url) name a)

/-! ## Store tree and `FileSource::load_metadata` -/

/-- The part of the on-disk tree written by `StoreVisitor::visit_context`
that `FileSource::load_metadata` reads back: the content of
`metadata/provider-metadata.json` (the serde JSON round-trip of
`ProviderMetadata` is modelled as the identity) and the file names under
`metadata/keys/`. -/
structure StoreTree where
  provider_metadata : ProviderMetadata
  key_files : List String
deriving DecidableEq, Repr

/-- The tree produced by `StoreVisitor::visit_context`:
`provider-metadata.json` holds the metadata unchanged, and one
`<fingerprint>.txt` file exists per stored certificate. -/
def store_metadata_tree (md : ProviderMetadata) (keys : List PublicKey) : StoreTree :=
  { provider_metadata := md,
    key_files := ((keys.flatMap fun k => k.certs).map
      fun c => c.fingerprintHex ++ ".txt") }

/-- Rust `str::rsplit_once(c)`: split at the last occurrence of `c`. -/
def rsplit_once (c : Char) (s : String) : Option (String × String) :=
  match split_char c s with
  | [] => none
  | [_] => none
  | x :: xs =>
    some (str_intercalate (String.mk [c]) (x :: xs.dropLast),
          (x :: xs).getLast (by simp))

/-- `FileSource::scan_keys`: every regular file `<stem>.txt` under
`metadata/keys/` yields a key whose fingerprint is the stem and whose
URL is the file's `file://` URL. -/
def scan_keys (base : List String) (key_files : List String) : List MetadataKey :=
  key_files.filterMap fun name =>
    match rsplit_once '.' name with
    | some (stem, "txt") =>
      some { fingerprint := some stem,
             url := fileUrl (base ++ ["metadata", "keys", name]) }
    | _ => none

/-- The URL rewriting of `FileSource::load_metadata`: each directory URL
and each ROLIE feed URL becomes the `file://` directory URL of
`distribution_base(base, url)`. -/
def rewrite_distribution (base : List String) (d : Distribution) : Distribution :=
  { directory_url := d.directory_url.map fun u => fileDirUrl (distribution_base base u),
    rolie := d.rolie.map fun r =>
      { feeds := r.feeds.map fun f => { url := fileDirUrl (distribution_base base f.url) } } }

/-- `FileSource::load_metadata`: read the stored metadata, replace the
keys by the scan of `metadata/keys/`, and rewrite every distribution
directory URL and ROLIE feed URL to its `file://` store location. -/
def file_load_metadata (base : List String) (t : StoreTree) : ProviderMetadata :=
  let md := t.provider_metadata
  { md with
    public_openpgp_keys := scan_keys base t.key_files,
    distributions := md.distributions.map (rewrite_distribution base) }

/-! ## Validated-stage store visitor -/

/-- A validation error (`ValidationError`), by the spec's taxonomy. -/
inductive ValidationError where
  | retrieval
  | noSignature
  | unknownKey
  | signatureInvalid
  | digestMismatch (alg expected actual : String)
deriving DecidableEq, Repr

/-- The error of the validated-stage store visitor
(`StoreValidatedError`): a store error or a wrapped validation error. -/
inductive StoreValidatedError where
  | store (e : StoreError)
  | validation (e : ValidationError)
deriving DecidableEq, Repr

/-- A validated advisory (`ValidatedAdvisory`): the retrieved advisory
it wraps. -/
structure ValidatedAdvisory where
  retrieved : RetrievedAdvisory
deriving DecidableEq, Repr

/-- `<StoreVisitor as ValidatedVisitor>::visit_advisory`
(`self.store(&result?.retrieved).await?`): an `Err` input is wrapped as
`StoreValidatedError::Validation` and returned before anything is
written; an `Ok` input is stored, with store errors wrapped as
`StoreValidatedError::Store`.  Returns the performed write operations
and the outcome. -/
def visit_advisory_validated (base : List String)
    (result : Except ValidationError ValidatedAdvisory) :
    List WriteOp × Except StoreValidatedError Unit :=
  match result with
  | .error e => ([], .error (.validation e))
  | .ok a =>
    match store_advisory_ops base a.retrieved with
    | .error e => ([], .error (.store e))
    | .ok ops => (ops, .ok ())

/-- Feeding a sequence of validated results to the store visitor the way
a walk does: stop at the first visitor error. -/
def run_validated_visits (base : List String) :
    List (Except ValidationError ValidatedAdvisory) →
    Except StoreValidatedError Unit
  | [] => .ok ()
  | r :: rest =>
    match visit_advisory_validated base r with
    | (_, .ok ()) => run_validated_visits base rest
    | (_, .error e) => .error e

/-! ## Walker -/

/-- `Walker::collect_distributions`: flatten each metadata distribution
into its ROLIE feed contexts followed by its directory context, then
apply the optional distribution filter. -/
def collect_distributions (filt : Option (DistributionContext → Bool))
    (ds : List Distribution) : List DistributionContext :=
  (ds.flatMap fun d =>
    (match d.rolie with
     | some r => r.feeds.map fun f => DistributionContext.Feed f.url
     | none => []) ++
    (match d.directory_url with
     | some u => [DistributionContext.Directory u]
     | none => []))
  |>.filter fun c =>
    match filt with
    | some f => f c
    | none => true

/-- An observable event of a walk: a source call or a visitor call. -/
inductive WalkEvent where
  | loadMetadata
  | visitContext
  | loadIndex (ctx : DistributionContext)
  | visitAdvisory (adv : DiscoveredAdvisory)
deriving DecidableEq, Repr

/-- The event trace of the sequential `Walker::walk` on its success
path: load the metadata, visit the context, then for each distribution
surviving the filter load its index and visit each advisory in index
order. -/
def walk_trace (filt : Option (DistributionContext → Bool))
    (md : ProviderMetadata)
    (index : DistributionContext → List DiscoveredAdvisory) : List WalkEvent :=
  [.loadMetadata, .visitContext] ++
    (collect_distributions filt md.distributions).flatMap fun c =>
      WalkEvent.loadIndex c :: (index c).map WalkEvent.visitAdvisory

/-- `collect_advisories` / `collect_sources` of `walk_parallel`: load
the index of every distribution context in order and flatten, failing
with the first source error. -/
def collect_advisories {ε : Type}
    (index : DistributionContext → Except ε (List DiscoveredAdvisory))
    (cs : List DistributionContext) : Except ε (List DiscoveredAdvisory) :=
  (collect_results (cs.map index)).map List.flatten

/-- The advisories visited by `Walker::walk_parallel`: all advisories of
all surviving distributions, collected up front; `try_for_each_concurrent`
then invokes `visit_advisory` exactly once per element of this list (in
an unspecified interleaving), so this list is the multiset of
`visit_advisory` arguments on the success path. -/
def walk_parallel_visits {ε : Type}
    (filt : Option (DistributionContext → Bool)) (md : ProviderMetadata)
    (index : DistributionContext → Except ε (List DiscoveredAdvisory)) :
    Except ε (List DiscoveredAdvisory) :=
  collect_advisories index (collect_distributions filt md.distributions)

/-! ## Helper lemmas -/

theorem since_filter_error (since : Option Nat) (e : ParseError) :
    since_filter since (.error e) = true := rfl

theorem since_filter_none (r : Except ParseError DiscoveredAdvisory) :
    since_filter none r = true := by cases r <;> rfl

theorem since_filter_ok (T : Nat) (a : DiscoveredAdvisory) :
    since_filter (some T) (.ok a) = decide (T ≤ a.modified) := rfl

theorem collect_results_cons_error {ε α : Type} (e : ε) (l : List (Except ε α)) :
    collect_results (.error e :: l) = .error e := rfl

theorem collect_results_cons_ok {ε α : Type} (a : α) (l : List (Except ε α)) :
    collect_results (.ok a :: l) = (collect_results l).map (a :: ·) := rfl

theorem filter_since_none (l : List (Except ParseError DiscoveredAdvisory)) :
    l.filter (since_filter none) = l := by
  induction l with
  | nil => rfl
  | cons x xs ih => rw [List.filter_cons, if_pos (since_filter_none x), ih]

/-- Filtering by the since watermark before collecting results is the
same as collecting and then filtering the successful list: parse errors
pass the filter, so the first error is preserved either way. -/
theorem collect_results_filter_since (T : Nat)
    (l : List (Except ParseError DiscoveredAdvisory)) :
    collect_results (l.filter (since_filter (some T)))
      = (collect_results l).map (List.filter fun a => decide (T ≤ a.modified)) := by
  induction l with
  | nil => rfl
  | cons x xs ih =>
    cases x with
    | error e =>
      rw [List.filter_cons, if_pos (since_filter_error (some T) e),
        collect_results_cons_error, collect_results_cons_error]
      rfl
    | ok a =>
      rw [List.filter_cons, collect_results_cons_ok, since_filter_ok]
      by_cases hT : T ≤ a.modified
      · rw [if_pos (by simpa using hT), collect_results_cons_ok, ih]
        cases h : collect_results xs with
        | error e => rfl
        | ok as => simp [Except.map, List.filter_cons, hT]
      · rw [if_neg (by simpa using hT), ih]
        cases h : collect_results xs with
        | error e => rfl
        | ok as => simp [Except.map, List.filter_cons, hT]

/-! ## C2 -/

/-- C2: for every source (HTTP directory, HTTP ROLIE feed, and File)
configured with a since watermark `T`, `load_index` returns exactly the
entries the unfiltered run returns minus those whose modification
timestamp is strictly below `T`: an entry with timestamp `≥ T` is kept,
one with timestamp `< T` is excluded. -/
theorem load_index_since_watermark (T : Nat) (base feed : String)
    (dents : List ChangeEntry) (fents : List SourceFile)
    (ctx : DistributionContext) (fs : List FileEntry) :
    http_load_index_directory (some T) base dents
      = (http_load_index_directory none base dents).map
          (List.filter fun a => decide (T ≤ a.modified))
  ∧ http_load_index_feed (some T) feed fents
      = (http_load_index_feed none feed fents).map
          (List.filter fun a => decide (T ≤ a.modified))
  ∧ file_load_index (some T) ctx fs
      = (file_load_index none ctx fs).filter fun a => decide (T ≤ a.modified) := by
  refine ⟨?_, ?_, ?_⟩
  · simp only [http_load_index_directory]
    rw [collect_results_filter_since, filter_since_none]
  · simp only [http_load_index_feed]
    rw [collect_results_filter_since, filter_since_none]
  · simp only [file_load_index]
    rw [List.filter_filterMap]
    apply List.filterMap_congr
    intro e _
    by_cases hf : e.isFile
    · simp only [hf]
      cases e.fileName with
      | none => rfl
      | some name =>
        by_cases hj : str_ends_with name ".json"
        · by_cases hm : e.mtime < T <;>
            simp [hj, hm, Option.filter, Nat.not_le.mpr, Nat.le_of_not_lt,
              Nat.not_le_of_lt]
        · simp [hj]
    · simp [hf]

/-! ## C10 -/

theorem collect_results_error_of_mem {ε α : Type} {l : List (Except ε α)} {e : ε}
    (h : Except.error e ∈ l) : ∃ e', collect_results l = .error e' := by
  induction l with
  | nil => simp at h
  | cons x xs ih =>
    cases x with
    | error e0 => exact ⟨e0, rfl⟩
    | ok a =>
      rcases List.mem_cons.mp h with h1 | h1
      · exact absurd h1 (by simp)
      · obtain ⟨e', he⟩ := ih h1
        exact ⟨e', by rw [collect_results_cons_ok, he]; rfl⟩

/-- C10: `HttpSource::load_index` is all-or-nothing per distribution: as
soon as one entry fails to parse (the joined file URL for a directory
distribution; the file, digest or signature URL for a ROLIE feed), the
whole call returns an error and no partial list is produced — the since
filter never discards a failed entry. -/
theorem load_index_all_or_nothing (since : Option Nat) (base feed : String)
    (dents : List ChangeEntry) (fents : List SourceFile)
    (hd : ∃ e ∈ dents, ∃ err,
      directory_entry_parse (.Directory base) base e = .error err)
    (hf : ∃ sf ∈ fents, ∃ err, feed_entry_parse (.Feed feed) sf = .error err) :
    (∃ err, http_load_index_directory since base dents = .error err)
  ∧ (∃ err, http_load_index_feed since feed fents = .error err) := by
  constructor
  · obtain ⟨e, he, err, herr⟩ := hd
    have hm : Except.error err
        ∈ dents.map (directory_entry_parse (.Directory base) base) :=
      List.mem_map.mpr ⟨e, he, herr⟩
    have hm2 : Except.error err
        ∈ (dents.map (directory_entry_parse (.Directory base) base)).filter
            (since_filter since) :=
      List.mem_filter_of_mem hm (since_filter_error since err)
    simpa only [http_load_index_directory] using collect_results_error_of_mem hm2
  · obtain ⟨sf, hsf, err, herr⟩ := hf
    have hm : Except.error err ∈ fents.map (feed_entry_parse (.Feed feed)) :=
      List.mem_map.mpr ⟨sf, hsf, herr⟩
    have hm2 : Except.error err
        ∈ (fents.map (feed_entry_parse (.Feed feed))).filter
            (since_filter since) :=
      List.mem_filter_of_mem hm (since_filter_error since err)
    simpa only [http_load_index_feed] using collect_results_error_of_mem hm2

/-- Witness for `load_index_all_or_nothing` at a concrete malformed
directory base and a concrete non-URL ROLIE entry. -/
theorem load_index_all_or_nothing_witness :
    (∃ err, http_load_index_directory none "bad base" [⟨"x.json", 5⟩] = .error err)
  ∧ (∃ err, http_load_index_feed none "https://ex/feed.json"
      [⟨"not a url", 5, none, none⟩] = .error err) :=
  load_index_all_or_nothing none "bad base" "https://ex/feed.json"
    [⟨"x.json", 5⟩] [⟨"not a url", 5, none, none⟩]
    ⟨⟨"x.json", 5⟩, by simp, .invalid, rfl⟩
    ⟨⟨"not a url", 5, none, none⟩, by simp, .invalid, rfl⟩

/-! ## C4 -/

/-- C4 (code bug): the directory branch's `join_url` tests whether the
relative path *ends* with `/` — not whether it starts with one — and
then drops the path's *first* character.  Consequently a path starting
with `/` under a base ending in `/` keeps both slashes (the document URL
contains a doubled slash at the join point), and a path ending in `/`
has its first character mangled instead. -/
theorem join_url_slash_handling :
    join_url "https://ex/d/" "/a.json" = "https://ex/d//a.json"
  ∧ http_join "https://ex/d/" "/a.json" = .ok "https://ex/d//a.json"
  ∧ join_url "https://ex/d/" "dir/" = "https://ex/d/ir/" :=
  ⟨by decide, rfl, by decide⟩

/-! ## C5 -/

/-- Concrete document for the digest-token evaluation: discovered from a
directory distribution, without a digest URL. -/
def c5_doc : DiscoveredAdvisory :=
  { url := "https://ex/d/a.json", modified := 0,
    context := .Directory "https://ex/d/" }

/-- Concrete remote world for the digest-token evaluation: the document
exists and its `.sha256` sibling holds a digest line with leading
whitespace. -/
def c5_world : FetchWorld := fun u =>
  if u = "https://ex/d/a.json" then .found "{}"
  else if u = "https://ex/d/a.json.sha256" then .found " deadbeef a.json"
  else .notFound

/-- C5 (code bug): the expected digest is taken with
`expected.split(' ').next()`, so a digest line with *leading* whitespace
yields the empty string as the expected digest, not the digest token:
`load_advisory` records `sha256 = some ""` for the body
`" deadbeef a.json"`, where the first whitespace-delimited token is
`"deadbeef"`. -/
theorem digest_token_leading_whitespace :
    http_load_advisory c5_world c5_doc
      = .ok { discovered := c5_doc, data := "{}", signature := none,
              sha256 := some "", sha512 := none }
  ∧ digest_token " deadbeef a.json" = some ""
  ∧ ("" : String) ≠ "deadbeef" :=
  ⟨rfl, rfl, by decide⟩

/-! ## C3 -/

/-- The SHA-256 digest-fetch rule *as the claim states it* (for
comparison with `sha256_fetch`, which follows the source): fetch from
the digest URL if it ends `.sha256`, and otherwise — including when a
digest URL is present with another suffix — from `url + ".sha256"`. -/
def claimed_sha256_fetch (w : FetchWorld) (d : DiscoveredAdvisory) :
    Except FetchError (Option String) :=
  match d.digest with
  | some dg =>
    if str_ends_with dg ".sha256" then fetch_optional w dg
    else fetch_optional w (d.url ++ ".sha256")
  | none => fetch_optional w (d.url ++ ".sha256")

/-- Concrete document for the digest-selection counterexample: its
discovered digest URL ends `.sha512`. -/
def c3_doc : DiscoveredAdvisory :=
  { url := "https://ex/d/a.json", modified := 0,
    digest := some "https://ex/d/a.json.sha512",
    context := .Directory "https://ex/d/" }

/-- Concrete remote world for the digest-selection counterexample: both
digest sibling files exist. -/
def c3_world : FetchWorld := fun u =>
  if u = "https://ex/d/a.json" then .found "{}"
  else if u = "https://ex/d/a.json.sha256" then .found "cafe a.json"
  else if u = "https://ex/d/a.json.sha512" then .found "feed a.json"
  else .notFound

/-- Counterexample to C3 as stated: when a digest URL is present but
ends `.sha512`, the code returns `None` for SHA-256 without attempting
the sibling `url + ".sha256"` — although that sibling exists and the
claim says it is fetched. -/
theorem sha256_sibling_not_attempted :
    sha256_fetch c3_world c3_doc = .ok none
  ∧ claimed_sha256_fetch c3_world c3_doc = .ok (some "cafe a.json")
  ∧ c3_world (c3_doc.url ++ ".sha256") = .found "cafe a.json"
  ∧ http_load_advisory c3_world c3_doc
      = .ok { discovered := c3_doc, data := "{}", signature := none,
              sha256 := none, sha512 := some "feed" }
  ∧ sha256_fetch c3_world c3_doc ≠ claimed_sha256_fetch c3_world c3_doc :=
  ⟨rfl, rfl, rfl, rfl, by
    intro h
    have h' : (Except.ok (none : Option String) : Except FetchError (Option String))
        = .ok (some "cafe a.json") := h
    simp at h'⟩

/-- C3 as amended: the SHA-256 line is fetched from the digest URL when
that URL ends `.sha256`; when a digest URL is present with another
suffix, *no* SHA-256 line is fetched at all (the sibling URL is not
attempted); only when no digest URL was discovered is the sibling
`url + ".sha256"` attempted — analogously for SHA-512 — and a 404 on
any attempted URL yields absence, not an error. -/
theorem load_advisory_digest_selection
    (w : FetchWorld) (d : DiscoveredAdvisory) (body : String) :
    (d.digest = none → d.signature = none →
      w (d.url ++ ".asc") = .notFound →
      w (d.url ++ ".sha256") = .notFound →
      w (d.url ++ ".sha512") = .notFound →
      w d.url = .found body →
      http_load_advisory w d
        = .ok { discovered := d, data := body, signature := none,
                sha256 := none, sha512 := none })
  ∧ (∀ sig l256 l512, d.digest = none → d.signature = none →
      w (d.url ++ ".asc") = .found sig →
      w (d.url ++ ".sha256") = .found l256 →
      w (d.url ++ ".sha512") = .found l512 →
      w d.url = .found body →
      http_load_advisory w d
        = .ok { discovered := d, data := body, signature := some sig,
                sha256 := digest_token l256, sha512 := digest_token l512 })
  ∧ (∀ dg l, d.digest = some dg → d.signature = none →
      str_ends_with dg ".sha256" = true → str_ends_with dg ".sha512" = false →
      w (d.url ++ ".asc") = .notFound →
      w dg = .found l →
      w d.url = .found body →
      http_load_advisory w d
        = .ok { discovered := d, data := body, signature := none,
                sha256 := digest_token l, sha512 := none })
  ∧ (∀ dg, d.digest = some dg → d.signature = none →
      str_ends_with dg ".sha256" = false → str_ends_with dg ".sha512" = false →
      w (d.url ++ ".asc") = .notFound →
      w d.url = .found body →
      http_load_advisory w d
        = .ok { discovered := d, data := body, signature := none,
                sha256 := none, sha512 := none }) := by
  refine ⟨?_, ?_, ?_, ?_⟩
  · intro hdg hsig hasc h256 h512 hbody
    simp [http_load_advisory, signature_fetch, sha256_fetch, sha512_fetch,
      fetch_optional, fetch_body, hdg, hsig, hasc, h256, h512, hbody]
  · intro sig l256 l512 hdg hsig hasc h256 h512 hbody
    simp [http_load_advisory, signature_fetch, sha256_fetch, sha512_fetch,
      fetch_optional, fetch_body, hdg, hsig, hasc, h256, h512, hbody]
  · intro dg l hdg hsig h256 h512 hasc hl hbody
    simp [http_load_advisory, signature_fetch, sha256_fetch, sha512_fetch,
      fetch_optional, fetch_body, hdg, hsig, h256, h512, hasc, hl, hbody]
  · intro dg hdg hsig h256 h512 hasc hbody
    simp [http_load_advisory, signature_fetch, sha256_fetch, sha512_fetch,
      fetch_optional, fetch_body, hdg, hsig, h256, h512, hasc, hbody]

/-- Concrete document with no digest URL, for the amended-C3 witness. -/
def c3_doc_bare : DiscoveredAdvisory :=
  { url := "https://ex/d/b.json", modified := 0,
    context := .Directory "https://ex/d/" }

/-- Concrete remote world where only the document body exists, for the
amended-C3 witness. -/
def c3_world_bare : FetchWorld := fun u =>
  if u = "https://ex/d/b.json" then .found "{}" else .notFound

/-- Witness for `load_advisory_digest_selection`: for a document with no
digest URL whose siblings all 404, the load succeeds with no signature
and no digests. -/
theorem load_advisory_digest_selection_witness :
    http_load_advisory c3_world_bare c3_doc_bare
      = .ok { discovered := c3_doc_bare, data := "{}", signature := none,
              sha256 := none, sha512 := none } :=
  (load_advisory_digest_selection c3_world_bare c3_doc_bare "{}").1
    rfl rfl rfl rfl rfl rfl

/-! ## C1 -/

/-- Concrete metadata with one distribution and one key, for the
round-trip counterexample. -/
def c1_md : ProviderMetadata :=
  { distributions := [{ directory_url := some "https://ex/d/" }],
    public_openpgp_keys := [{ fingerprint := some "ABC",
                              url := "https://ex/key.asc" }] }

/-- Concrete stored key set matching `c1_md`'s key fingerprint. -/
def c1_keys : List PublicKey := [{ certs := [{ fingerprintHex := "ABC" }] }]

/-- Counterexample to C1 as stated: reloading a stored tree does *not*
return the original metadata with only the distribution and feed URLs
rewritten — the key list is replaced as well (its URLs become `file:`
URLs of the stored key files), so the reloaded metadata differs from the
claim's predicted value as soon as the provider has a key. -/
theorem provider_metadata_roundtrip_keys_changed :
    file_load_metadata ["out"] (store_metadata_tree c1_md c1_keys)
      ≠ { c1_md with
          distributions := c1_md.distributions.map (rewrite_distribution ["out"]) } := by
  decide

/-- C1 as amended: reloading a tree produced by the store visitor
reproduces the provider metadata the HTTP source produced, except that
(a) every distribution directory URL and every ROLIE feed URL is
rewritten to the `file:` URL of the subdirectory derived from the
distribution's original URL by the same `distribution_base` derivation
the store used, with distribution ordering (and count) preserved, and
(b) the key list is replaced by the scan of the stored key files (one
key per stored certificate, fingerprint from the file-name stem, URL the
`file:` URL of the stored file); all untouched fields round-trip
unchanged. -/
theorem provider_metadata_roundtrip (base : List String)
    (md : ProviderMetadata) (keys : List PublicKey) :
    (file_load_metadata base (store_metadata_tree md keys)).distributions
      = md.distributions.map (rewrite_distribution base)
  ∧ (∀ i : Nat,
      (file_load_metadata base (store_metadata_tree md keys)).distributions[i]?
        = (md.distributions[i]?).map (rewrite_distribution base))
  ∧ (file_load_metadata base (store_metadata_tree md keys)).distributions.length
      = md.distributions.length
  ∧ (∀ d : Distribution,
      (rewrite_distribution base d).directory_url
        = d.directory_url.map fun u => fileDirUrl (distribution_base base u))
  ∧ (file_load_metadata base (store_metadata_tree md keys)).canonical_url
      = md.canonical_url
  ∧ (file_load_metadata base (store_metadata_tree md keys)).public_openpgp_keys
      = scan_keys base ((keys.flatMap fun k => k.certs).map
          fun c => c.fingerprintHex ++ ".txt") := by
  refine ⟨rfl, ?_, ?_, fun d => rfl, rfl, rfl⟩
  · intro i
    simp [file_load_metadata, store_metadata_tree, List.getElem?_map]
  · simp [file_load_metadata, store_metadata_tree]

/-! ## C6 -/

/-- Counterexample to C6 as stated: the store visitor writes
`metadata/provider-metadata.json` directly with `File::create` — not via
a temporary path and rename — so not every file it writes becomes
observable only with complete content. -/
theorem provider_metadata_written_directly :
    WriteOp.createFinal ["out", "metadata", "provider-metadata.json"]
      ∈ visit_context_ops ["out"] { distributions := [] } []
  ∧ (WriteOp.createFinal ["out", "metadata", "provider-metadata.json"]).isTempRename
      = false :=
  ⟨by simp [visit_context_ops, store_provider_metadata_ops, store_keys_ops,
      prepare_distributions_ops], rfl⟩

/-- C6 as amended: document payloads and their sibling files are written
atomically via a temporary path and rename (`store_document`), so a
partially written *document* is never observable under its final name;
but `metadata/provider-metadata.json` (and the key files) are written
directly to their final names by `visit_context`. -/
theorem store_document_ops_temp_rename (dir : List String) (name : String)
    (a : RetrievedAdvisory) :
    (store_document_ops dir name a).all WriteOp.isTempRename = true := by
  cases a with
  | mk disc data sig s256 s512 => cases sig <;> cases s256 <;> cases s512 <;> rfl

theorem store_writes_atomicity (base : List String) (md : ProviderMetadata)
    (keys : List PublicKey) (a : RetrievedAdvisory) (ops : List WriteOp)
    (h : store_advisory_ops base a = .ok ops) :
    (∀ op ∈ ops, op.isTempRename = true)
  ∧ WriteOp.createFinal (base ++ ["metadata", "provider-metadata.json"])
      ∈ visit_context_ops base md keys := by
  constructor
  · cases hmr : make_relative a.discovered.context.url a.discovered.url with
    | none => simp [store_advisory_ops, hmr] at h
    | some name =>
      simp only [store_advisory_ops, hmr, Except.ok.injEq] at h
      subst h
      exact List.all_eq_true.mp (store_document_ops_temp_rename _ name a)
  · simp [visit_context_ops, store_provider_metadata_ops]

/-- Concrete advisory for the atomicity witness. -/
def c6_adv : RetrievedAdvisory :=
  { discovered := { url := "https://ex/d/a.json", modified := 0,
                    context := .Directory "https://ex/d/" },
    data := "{}", signature := some "sig", sha256 := some "abc",
    sha512 := none }

/-- Witness for `store_writes_atomicity` at a concrete stored advisory. -/
theorem store_writes_atomicity_witness :
    (∀ op ∈ [WriteOp.tempRename ["out", "ex", "d", "a.json"],
             WriteOp.tempRename ["out", "ex", "d", "a.json.asc"],
             WriteOp.tempRename ["out", "ex", "d", "a.json.sha256"]],
        op.isTempRename = true)
  ∧ WriteOp.createFinal (["out"] ++ ["metadata", "provider-metadata.json"])
      ∈ visit_context_ops ["out"] { distributions := [] } [] :=
  store_writes_atomicity ["out"] { distributions := [] } [] c6_adv _ (by rfl)

/-! ## C9 -/

/-- C9: the validated-stage store visitor turns every
`Err(ValidationError)` input into `Err(StoreValidatedError::Validation)`
without performing any write, and consequently a walk that feeds it a
sequence containing a validation failure aborts with an error instead of
skipping the document. -/
theorem validated_visitor_wraps_validation_error (base : List String)
    (e : ValidationError)
    (rs : List (Except ValidationError ValidatedAdvisory))
    (h : Except.error e ∈ rs) :
    visit_advisory_validated base (.error e) = ([], .error (.validation e))
  ∧ ∃ e', run_validated_visits base rs = .error e' := by
  refine ⟨rfl, ?_⟩
  induction rs with
  | nil => simp at h
  | cons r rest ih =>
    cases r with
    | error e0 => exact ⟨.validation e0, rfl⟩
    | ok a =>
      have hmem : Except.error e ∈ rest := by
        rcases List.mem_cons.mp h with h1 | h1
        · exact absurd h1 (by simp)
        · exact h1
      obtain ⟨e', he'⟩ := ih hmem
      cases hs : store_advisory_ops base a.retrieved with
      | error se =>
        exact ⟨.store se,
          by simp [run_validated_visits, visit_advisory_validated, hs]⟩
      | ok ops =>
        exact ⟨e',
          by simp [run_validated_visits, visit_advisory_validated, hs, he']⟩

/-- Witness for `validated_visitor_wraps_validation_error` at a concrete
digest-mismatch failure. -/
theorem validated_visitor_wraps_validation_error_witness :
    visit_advisory_validated ["out"]
        (.error (.digestMismatch "sha256" "deadbeef" "cafe"))
      = ([], .error (.validation (.digestMismatch "sha256" "deadbeef" "cafe")))
  ∧ ∃ e', run_validated_visits ["out"]
        [.error (.digestMismatch "sha256" "deadbeef" "cafe")] = .error e' :=
  validated_visitor_wraps_validation_error ["out"]
    (.digestMismatch "sha256" "deadbeef" "cafe")
    [.error (.digestMismatch "sha256" "deadbeef" "cafe")] (by simp)

/-! ## C7 -/

theorem collect_results_of_forall_ok {ε : Type}
    {cs : List DistributionContext}
    {index : DistributionContext → Except ε (List DiscoveredAdvisory)}
    {g : DistributionContext → List DiscoveredAdvisory}
    (h : ∀ c ∈ cs, index c = .ok (g c)) :
    collect_results (cs.map index) = .ok (cs.map g) := by
  induction cs with
  | nil => rfl
  | cons c cs ih =>
    rw [List.map_cons, h c (List.mem_cons_self c cs), collect_results_cons_ok,
      ih fun c' hc' => h c' (List.mem_cons_of_mem _ hc')]
    rfl

/-- C7: on the success path, `walk_parallel` first collects all
documents of all surviving distributions into one sequence — the
concatenation of the per-distribution indices in distribution order —
and visits exactly that sequence, so for every URL the number of
`visit_advisory` calls with that URL equals the total number of index
entries carrying it. -/
theorem walk_parallel_visits_every_advisory {ε : Type}
    (filt : Option (DistributionContext → Bool)) (md : ProviderMetadata)
    (index : DistributionContext → Except ε (List DiscoveredAdvisory))
    (g : DistributionContext → List DiscoveredAdvisory)
    (h : ∀ c ∈ collect_distributions filt md.distributions, index c = .ok (g c)) :
    walk_parallel_visits filt md index
      = .ok (((collect_distributions filt md.distributions).map g).flatten)
  ∧ ∀ u : String,
      ((((collect_distributions filt md.distributions).map g).flatten.map
          DiscoveredAdvisory.url).count u)
        = (((collect_distributions filt md.distributions).map
            fun c => ((g c).map DiscoveredAdvisory.url).count u).sum) := by
  constructor
  · simp only [walk_parallel_visits, collect_advisories]
    rw [collect_results_of_forall_ok h]
    rfl
  · intro u
    rw [List.map_flatten, List.count_flatten, List.map_map, List.map_map]
    rfl

/-- Concrete metadata with a directory distribution and a ROLIE feed,
for the parallel-walk witness. -/
def c7_md : ProviderMetadata :=
  { distributions := [{ directory_url := some "https://ex/d/" },
                      { rolie := some { feeds := [{ url := "https://ex/feed.json" }] } }] }

/-- Concrete per-distribution index for the parallel-walk witness. -/
def c7_g : DistributionContext → List DiscoveredAdvisory := fun c =>
  [{ url := c.url ++ "a.json", modified := 1, context := c }]

/-- Witness for `walk_parallel_visits_every_advisory` on a concrete
two-distribution metadata. -/
theorem walk_parallel_visits_every_advisory_witness :
    walk_parallel_visits (ε := Unit) none c7_md (fun c => .ok (c7_g c))
      = .ok (((collect_distributions none c7_md.distributions).map c7_g).flatten)
  ∧ ∀ u : String,
      ((((collect_distributions none c7_md.distributions).map c7_g).flatten.map
          DiscoveredAdvisory.url).count u)
        = (((collect_distributions none c7_md.distributions).map
            fun c => ((c7_g c).map DiscoveredAdvisory.url).count u).sum) :=
  walk_parallel_visits_every_advisory none c7_md (fun c => .ok (c7_g c)) c7_g
    fun _ _ => rfl

/-! ## C8 -/

theorem mem_collect_distributions_filter {f : DistributionContext → Bool}
    {ds : List Distribution} {c : DistributionContext}
    (h : c ∈ collect_distributions (some f) ds) : f c = true :=
  List.of_mem_filter h

theorem loadIndex_mem_walk_trace {filt : Option (DistributionContext → Bool)}
    {md : ProviderMetadata}
    {index : DistributionContext → List DiscoveredAdvisory}
    {c : DistributionContext} :
    WalkEvent.loadIndex c ∈ walk_trace filt md index
      ↔ c ∈ collect_distributions filt md.distributions := by
  simp [walk_trace, List.mem_flatMap]

/-- C8: a distribution rejected by the configured filter never reaches
the source: no `load_index` event for it occurs in the sequential walk's
trace, it is absent from the context list `walk_parallel` feeds to
`load_index`, and conversely every `load_index` event in the trace is
for a distribution the filter accepted. -/
theorem rejected_distribution_no_io (f : DistributionContext → Bool)
    (md : ProviderMetadata)
    (index : DistributionContext → List DiscoveredAdvisory)
    (c : DistributionContext) (hc : f c = false) :
    WalkEvent.loadIndex c ∉ walk_trace (some f) md index
  ∧ c ∉ collect_distributions (some f) md.distributions
  ∧ ∀ c', WalkEvent.loadIndex c' ∈ walk_trace (some f) md index → f c' = true := by
  refine ⟨?_, ?_, ?_⟩
  · intro h
    have := mem_collect_distributions_filter (loadIndex_mem_walk_trace.mp h)
    rw [hc] at this
    cases this
  · intro h
    have := mem_collect_distributions_filter h
    rw [hc] at this
    cases this
  · intro c' h
    exact mem_collect_distributions_filter (loadIndex_mem_walk_trace.mp h)

/-- Concrete filter for the rejected-distribution witness: only URLs
under `https://keep/` are accepted. -/
def c8_f : DistributionContext → Bool := fun c =>
  str_starts_with c.url "https://keep/"

/-- Concrete metadata for the rejected-distribution witness. -/
def c8_md : ProviderMetadata :=
  { distributions := [{ directory_url := some "https://ex/d/" },
                      { directory_url := some "https://keep/d/" }] }

/-- Witness for `rejected_distribution_no_io`: the filter rejects
`https://ex/d/` and that distribution is never passed to `load_index`. -/
theorem rejected_distribution_no_io_witness :
    WalkEvent.loadIndex (.Directory "https://ex/d/")
        ∉ walk_trace (some c8_f) c8_md (fun _ => [])
  ∧ (DistributionContext.Directory "https://ex/d/")
        ∉ collect_distributions (some c8_f) c8_md.distributions
  ∧ ∀ c', WalkEvent.loadIndex c' ∈ walk_trace (some c8_f) c8_md (fun _ => [])
        → c8_f c' = true :=
  rejected_distribution_no_io c8_f c8_md (fun _ => [])
    (.Directory "https://ex/d/") (by decide)
